import Mathlib

/- Verification of the course-structure snapshot builder
   (openedx/core/djangoapps/content/course_structures/models.py) and of the
   cross-modulestore store scaffolding
   (common/lib/xmodule/xmodule/modulestore/tests/test_cross_modulestore_import_export.py),
   shallowly embedded. -/

namespace CourseStructures

/-- An XBlock node as consumed by generate_course_structure: it exposes
scope_ids.usage_id, category, display_name, graded, format, has_children
and get_children(). Children are an ordered list (authoring order). -/
inductive XBlock where
| mk : String → String → Option String → Bool → Option String → Bool → List XBlock → XBlock

def XBlock.usage_id : XBlock → String
| .mk u _ _ _ _ _ _ => u

def XBlock.category : XBlock → String
| .mk _ c _ _ _ _ _ => c

def XBlock.display_name : XBlock → Option String
| .mk _ _ d _ _ _ _ => d

def XBlock.graded : XBlock → Bool
| .mk _ _ _ g _ _ _ => g

def XBlock.format : XBlock → Option String
| .mk _ _ _ _ f _ _ => f

def XBlock.has_children : XBlock → Bool
| .mk _ _ _ _ _ h _ => h

def XBlock.get_children : XBlock → List XBlock
| .mk _ _ _ _ _ _ cs => cs

/-- The expression `curr_block.get_children() if curr_block.has_children
else []` from the loop body of generate_course_structure. -/
def XBlock.children_or_empty (b : XBlock) : List XBlock :=
  if b.has_children then b.get_children else []

mutual

def XBlock.size : XBlock → Nat
| .mk _ _ _ _ _ _ cs => 1 + sizeList cs

def sizeList : List XBlock → Nat
| [] => 0
| b :: bs => XBlock.size b + sizeList bs

end

theorem XBlock.size_pos (b : XBlock) : 0 < b.size := by
  cases b with
  | mk u c d g f h cs => simp [XBlock.size]

theorem sizeList_append (l₁ l₂ : List XBlock) :
    sizeList (l₁ ++ l₂) = sizeList l₁ + sizeList l₂ := by
  induction l₁ with
  | nil => simp [sizeList]
  | cons b bs ih => simp [sizeList, ih]; omega

theorem sizeList_reverse (l : List XBlock) : sizeList l.reverse = sizeList l := by
  induction l with
  | nil => rfl
  | cons b bs ih => simp [sizeList, List.reverse_cons, sizeList_append, ih]; omega

theorem sizeList_children_lt (b : XBlock) :
    sizeList b.children_or_empty < b.size := by
  cases b with
  | mk u c d g f h cs =>
    simp only [XBlock.children_or_empty, XBlock.has_children, XBlock.get_children, XBlock.size]
    cases h with
    | false => simp [sizeList]
    | true => simp

theorem sizeList_step (b : XBlock) (rest : List XBlock) :
    sizeList (b.children_or_empty.reverse ++ rest) < sizeList (b :: rest) := by
  simp only [sizeList_append, sizeList_reverse, sizeList]
  have := sizeList_children_lt b
  omega

theorem sizeList_step_norev (b : XBlock) (rest : List XBlock) :
    sizeList (b.children_or_empty ++ rest) < sizeList (b :: rest) := by
  simp only [sizeList_append, sizeList]
  have := sizeList_children_lt b
  omega

/-- One value of the blocks dictionary: the per-block record built by
generate_course_structure (usage_key, block_type, display_name, graded,
format, children usage ids). -/
structure StructEntry where
  usage_key : String
  block_type : String
  display_name : Option String
  graded : Bool
  format : Option String
  children : List String
deriving DecidableEq

/-- The record stored for one block:
`{"usage_key": ..., "block_type": curr_block.category, "display_name": ...,
  "graded": ..., "format": ..., "children": [unicode(child.scope_ids.usage_id) ...]}`. -/
def entryOf (b : XBlock) : StructEntry :=
  { usage_key := b.usage_id
    block_type := b.category
    display_name := b.display_name
    graded := b.graded
    format := b.format
    children := b.children_or_empty.map XBlock.usage_id }

/-- Python dict assignment `d[k] = v`: replaces the value in place when the
key is present, otherwise appends at the end (insertion order). -/
def dictInsert (d : List (String × StructEntry)) (k : String) (v : StructEntry) :
    List (String × StructEntry) :=
  if d.any (fun kv => kv.1 == k) then
    d.map (fun kv => if kv.1 == k then (k, v) else kv)
  else
    d ++ [(k, v)]

/-- The `while blocks_stack:` loop of generate_course_structure. The Python
stack pops from the tail and extends with children at the tail; we keep the
stack reversed (top of stack at the head), so pop takes the head and
`blocks_stack.extend(children)` prepends the reversed children. -/
def blocksLoop : List XBlock → List (String × StructEntry) → List (String × StructEntry)
| [], blocks_dict => blocks_dict
| curr :: rest, blocks_dict =>
  blocksLoop (curr.children_or_empty.reverse ++ rest)
    (dictInsert blocks_dict curr.usage_id (entryOf curr))
termination_by stack _ => sizeList stack
decreasing_by
  exact sizeList_step curr rest

/-- The snapshot dictionary: a root usage id and the blocks dictionary. -/
structure CourseStructureDict where
  root : String
  blocks : List (String × StructEntry)
deriving DecidableEq

/-- generate_course_structure: fetch the course block from the modulestore
(`modulestore().get_course(course_key, depth=None)`, modelled as a fallible
lookup function), then run the stack walk from the course block. -/
def generate_course_structure (ms : String → Except String XBlock)
    (course_key : String) : Except String CourseStructureDict :=
  match ms course_key with
  | .error e => .error e
  | .ok course => .ok { root := course.usage_id, blocks := blocksLoop [course] [] }

/-- The order in which the loop visits (pops) blocks. -/
def visitSeq : List XBlock → List XBlock
| [] => []
| curr :: rest => curr :: visitSeq (curr.children_or_empty.reverse ++ rest)
termination_by stack => sizeList stack
decreasing_by
  apply sizeList_step

/-- Depth-first preorder enumeration, children in authoring order: the blocks
reachable from the blocks of the argument list through effective children. -/
def reachSeq : List XBlock → List XBlock
| [] => []
| b :: rest => b :: reachSeq (b.children_or_empty ++ rest)
termination_by stack => sizeList stack
decreasing_by
  apply sizeList_step_norev

/-- The blocks reachable from the course root. -/
def reachable_blocks (course : XBlock) : List XBlock := reachSeq [course]

/-- The key-value pair the loop stores for a block. -/
def entryPair (b : XBlock) : String × StructEntry := (b.usage_id, entryOf b)

theorem reachSeq_append (l₁ l₂ : List XBlock) :
    reachSeq (l₁ ++ l₂) = reachSeq l₁ ++ reachSeq l₂ := by
  induction l₁ using reachSeq.induct with
  | case1 => simp [reachSeq]
  | case2 b rest ih =>
    rw [List.cons_append, reachSeq, reachSeq, ← List.append_assoc, ih, List.cons_append]

theorem reachSeq_singleton (b : XBlock) :
    reachSeq [b] = b :: reachSeq b.children_or_empty := by
  rw [reachSeq]
  simp

theorem reachSeq_cons (b : XBlock) (rest : List XBlock) :
    reachSeq (b :: rest) = (b :: reachSeq b.children_or_empty) ++ reachSeq rest := by
  rw [reachSeq, reachSeq_append]
  simp

theorem reachSeq_reverse_perm (l : List XBlock) :
    (reachSeq l.reverse).Perm (reachSeq l) := by
  induction l with
  | nil => simp
  | cons b bs ih =>
    rw [List.reverse_cons, reachSeq_append, reachSeq_cons b bs, ← reachSeq_singleton b]
    exact (ih.append_right _).trans List.perm_append_comm

theorem visitSeq_perm_reachSeq (stack : List XBlock) :
    (visitSeq stack).Perm (reachSeq stack) := by
  induction stack using visitSeq.induct with
  | case1 => simp [visitSeq, reachSeq]
  | case2 b rest ih =>
    rw [visitSeq, reachSeq_cons]
    refine (ih.cons b).trans ?_
    rw [reachSeq_append, List.cons_append]
    exact ((reachSeq_reverse_perm _).append_right _).cons b

theorem dictInsert_of_fresh (d : List (String × StructEntry)) (k : String) (v : StructEntry)
    (h : ∀ kv ∈ d, kv.1 ≠ k) : dictInsert d k v = d ++ [(k, v)] := by
  rw [dictInsert, if_neg]
  simp only [List.any_eq_true, beq_iff_eq, not_exists]
  intro kv hkv
  exact h kv hkv.1 hkv.2

theorem blocksLoop_eq (stack : List XBlock) (d : List (String × StructEntry))
    (hnodup : ((visitSeq stack).map XBlock.usage_id).Nodup)
    (hdisj : ∀ b ∈ visitSeq stack, ∀ kv ∈ d, kv.1 ≠ b.usage_id) :
    blocksLoop stack d = d ++ (visitSeq stack).map entryPair := by
  induction stack, d using blocksLoop.induct with
  | case1 d => simp [blocksLoop, visitSeq]
  | case2 b rest d ih =>
    rw [visitSeq] at hnodup hdisj
    simp only [List.map_cons, List.nodup_cons, List.mem_map] at hnodup
    have hfresh : dictInsert d b.usage_id (entryOf b) = d ++ [(b.usage_id, entryOf b)] :=
      dictInsert_of_fresh d _ _ (fun kv hkv => hdisj b (by simp) kv hkv)
    have hdisj₂ : ∀ b₂ ∈ visitSeq (b.children_or_empty.reverse ++ rest),
        ∀ kv ∈ dictInsert d b.usage_id (entryOf b), kv.1 ≠ b₂.usage_id := by
      intro b₂ hb₂ kv hkv
      rw [hfresh] at hkv
      rcases List.mem_append.mp hkv with hkv | hkv
      · exact hdisj b₂ (List.mem_cons_of_mem _ hb₂) kv hkv
      · simp only [List.mem_singleton] at hkv
        subst hkv
        intro heq
        exact hnodup.1 ⟨b₂, hb₂, heq.symm⟩
    rw [blocksLoop, ih hnodup.2 hdisj₂, hfresh, visitSeq, List.map_cons,
      List.append_assoc, List.singleton_append]
    simp [entryPair]

/-- C2: on a course whose reachable blocks carry pairwise-distinct usage ids
(a tree), generate_course_structure returns the course usage id as root, and a
blocks dictionary holding exactly one entry per reachable block, keyed by that
block's usage id and carrying the entryOf record (usage_key, block_type,
display_name, graded, format, children ids in authoring order); the number of
entries equals the number of reachable blocks (one visit per block). -/
theorem generate_course_structure_spec (ms : String → Except String XBlock)
    (course_key : String) (course : XBlock)
    (hms : ms course_key = .ok course)
    (hids : ((reachable_blocks course).map XBlock.usage_id).Nodup) :
    generate_course_structure ms course_key =
      .ok { root := course.usage_id, blocks := blocksLoop [course] [] } ∧
    (blocksLoop [course] []).Perm ((reachable_blocks course).map entryPair) ∧
    (blocksLoop [course] []).length = (reachable_blocks course).length := by
  have hperm : (visitSeq [course]).Perm (reachable_blocks course) :=
    visitSeq_perm_reachSeq [course]
  have hvnodup : ((visitSeq [course]).map XBlock.usage_id).Nodup :=
    ((hperm.map XBlock.usage_id).nodup_iff).mpr hids
  have hloop : blocksLoop [course] [] = (visitSeq [course]).map entryPair := by
    rw [blocksLoop_eq [course] [] hvnodup (by simp), List.nil_append]
  refine ⟨by simp [generate_course_structure, hms], ?_, ?_⟩
  · rw [hloop]
    exact hperm.map entryPair
  · rw [hloop, List.length_map]
    exact hperm.length_eq

def sampleVideo : XBlock :=
  .mk "block-v1:video1" "video" (some "Welcome Video") false none false []

def sampleProblem : XBlock :=
  .mk "block-v1:problem1" "problem" (some "Exercise") true (some "Homework") false [sampleVideo]

def sampleChapter : XBlock :=
  .mk "block-v1:chapter1" "chapter" (some "Chapter 1") false none true
    [sampleProblem, sampleVideo]

def sampleCourse : XBlock :=
  .mk "block-v1:course1" "course" (some "Demo Course") false none true [sampleChapter]

def sampleMs : String → Except String XBlock := fun _ => .ok sampleCourse

theorem generate_course_structure_spec_witness :
    ((reachable_blocks sampleCourse).map XBlock.usage_id).Nodup ∧
    (generate_course_structure sampleMs "course-v1:a+course+run" =
      .ok { root := sampleCourse.usage_id, blocks := blocksLoop [sampleCourse] [] } ∧
    (blocksLoop [sampleCourse] []).Perm ((reachable_blocks sampleCourse).map entryPair) ∧
    (blocksLoop [sampleCourse] []).length = (reachable_blocks sampleCourse).length) := by
  have hids : ((reachable_blocks sampleCourse).map XBlock.usage_id).Nodup := by
    simp [reachable_blocks, reachSeq, sampleCourse, sampleChapter, sampleProblem,
      sampleVideo, XBlock.children_or_empty, XBlock.has_children, XBlock.get_children,
      XBlock.usage_id]
  exact ⟨hids,
    generate_course_structure_spec sampleMs "course-v1:a+course+run" sampleCourse rfl hids⟩

/-- The course identifier handed to the update task: either a CourseLocator
(carrying its serialized id) or a value of some other type, carried with the
name of that type (what `type(course_key)` formats to). -/
inductive CourseKeyLike where
| courseLocator (id : String)
| otherType (type_name : String)

/-- One row of the CourseStructure table: course_id (unique) and the
compressed structure_json text. -/
structure CourseStructureRow where
  course_id : String
  structure_json : String
deriving DecidableEq

def jsonStr (s : String) : String := "\"" ++ s ++ "\""

def jsonOfOptStr : Option String → String
| none => "null"
| some s => jsonStr s

def jsonOfBool : Bool → String
| true => "true"
| false => "false"

/-- json.dumps of one blocks-dictionary value. -/
def jsonOfEntry (e : StructEntry) : String :=
  "\x7b" ++ jsonStr "usage_key" ++ ": " ++ jsonStr e.usage_key ++ ", " ++
    jsonStr "block_type" ++ ": " ++ jsonStr e.block_type ++ ", " ++
    jsonStr "display_name" ++ ": " ++ jsonOfOptStr e.display_name ++ ", " ++
    jsonStr "graded" ++ ": " ++ jsonOfBool e.graded ++ ", " ++
    jsonStr "format" ++ ": " ++ jsonOfOptStr e.format ++ ", " ++
    jsonStr "children" ++ ": [" ++ String.intercalate ", " (e.children.map jsonStr) ++ "]" ++
    "\x7d"

/-- json.dumps of the snapshot dictionary. -/
def jsonOfStructure (s : CourseStructureDict) : String :=
  "\x7b" ++ jsonStr "root" ++ ": " ++ jsonStr s.root ++ ", " ++
    jsonStr "blocks" ++ ": \x7b" ++
    String.intercalate ", "
      (s.blocks.map (fun kv => jsonStr kv.1 ++ ": " ++ jsonOfEntry kv.2)) ++
    "\x7d\x7d"

/-- The message logged by the isinstance guard:
`'update_course_structure requires a CourseLocator. Given %s.' % type(course_key)`. -/
def typeGuardMsg (type_name : String) : String :=
  "update_course_structure requires a CourseLocator. Given " ++ type_name ++ "."

/-- The message logged when generation raises:
`'An error occurred while generating course structure: %s' % e`. -/
def generateErrorMsg (e : String) : String :=
  "An error occurred while generating course structure: " ++ e

/-- Result of one update_course_structure invocation: the outcome (error means
the exception propagated to the caller, ok none is the early return of the
type guard, ok (some row) is the returned CourseStructure row), the table
after the call, and the log lines emitted during the call. -/
structure UpdateResult where
  outcome : Except String (Option CourseStructureRow)
  table : List CourseStructureRow
  log : List String

/-- The row-lookup predicate of `get_or_create(course_id=course_key, ...)`. -/
def keyMatches (cid : String) (r : CourseStructureRow) : Bool := r.course_id == cid

/-- Pointwise effect of saving the updated row r₂ over the table: the matched
row is replaced, every other row is untouched. -/
def replRow (cid : String) (r₂ : CourseStructureRow) (x : CourseStructureRow) :
    CourseStructureRow :=
  if keyMatches cid x then r₂ else x

/-- CourseStructure.objects.get_or_create with structure_json as default,
followed by the `cs.structure_json = structure_json; cs.save()` branch when
the row already existed: returns the resulting row and the table after. -/
def get_or_create_update (table : List CourseStructureRow) (cid sj : String) :
    CourseStructureRow × List CourseStructureRow :=
  match table.find? (keyMatches cid) with
  | none => (⟨cid, sj⟩, table ++ [⟨cid, sj⟩])
  | some r => (⟨r.course_id, sj⟩, table.map (replRow cid ⟨r.course_id, sj⟩))

/-- update_course_structure: isinstance guard (log and return), then
generate_course_structure inside try/except (log and re-raise on failure),
then json.dumps and the get_or_create/save upsert. -/
def update_course_structure (ms : String → Except String XBlock)
    (table : List CourseStructureRow) : CourseKeyLike → UpdateResult
| .otherType tn => ⟨.ok none, table, [typeGuardMsg tn]⟩
| .courseLocator cid =>
  match generate_course_structure ms cid with
  | .error e => ⟨.error e, table, [generateErrorMsg e]⟩
  | .ok st =>
    let res := get_or_create_update table cid (jsonOfStructure st)
    ⟨.ok (some res.1), res.2, []⟩

/-- A sequence of completed update operations, each against the modulestore
state current at that publish event. -/
def runUpdates (table : List CourseStructureRow) :
    List ((String → Except String XBlock) × CourseKeyLike) → List CourseStructureRow
| [] => table
| op :: ops => runUpdates (update_course_structure op.1 table op.2).table ops

theorem update_error_eq (ms : String → Except String XBlock)
    (table : List CourseStructureRow) (cid e : String)
    (hg : generate_course_structure ms cid = .error e) :
    update_course_structure ms table (.courseLocator cid) =
      ⟨.error e, table, [generateErrorMsg e]⟩ := by
  simp only [update_course_structure, hg]

theorem update_success_eq (ms : String → Except String XBlock)
    (table : List CourseStructureRow) (cid : String) (st : CourseStructureDict)
    (hg : generate_course_structure ms cid = .ok st) :
    update_course_structure ms table (.courseLocator cid) =
      ⟨.ok (some (get_or_create_update table cid (jsonOfStructure st)).1),
        (get_or_create_update table cid (jsonOfStructure st)).2, []⟩ := by
  simp only [update_course_structure, hg]

theorem get_or_create_update_none (table : List CourseStructureRow) (cid sj : String)
    (hf : table.find? (keyMatches cid) = none) :
    get_or_create_update table cid sj = (⟨cid, sj⟩, table ++ [⟨cid, sj⟩]) := by
  simp only [get_or_create_update, hf]

theorem get_or_create_update_some (table : List CourseStructureRow) (cid sj : String)
    (r : CourseStructureRow) (hf : table.find? (keyMatches cid) = some r) :
    get_or_create_update table cid sj =
      (⟨r.course_id, sj⟩, table.map (replRow cid ⟨r.course_id, sj⟩)) := by
  simp only [get_or_create_update, hf]

theorem filter_keyMatches_nil (l : List CourseStructureRow) (cid : String)
    (h : ∀ r ∈ l, r.course_id ≠ cid) :
    l.filter (keyMatches cid) = [] := by
  induction l with
  | nil => rfl
  | cons x xs ih =>
    have hx : keyMatches cid x = false := by
      simpa [keyMatches] using h x (List.mem_cons_self x xs)
    rw [List.filter_cons, hx, if_neg Bool.false_ne_true]
    exact ih fun r hr => h r (List.mem_cons_of_mem _ hr)

theorem filter_map_replRow_nil (cid : String) (r₂ : CourseStructureRow) :
    ∀ xs : List CourseStructureRow, (∀ x ∈ xs, x.course_id ≠ cid) →
    (xs.map (replRow cid r₂)).filter (keyMatches cid) = [] := by
  intro xs
  induction xs with
  | nil => intro _; rfl
  | cons x xs ih =>
    intro h
    have hx : x.course_id ≠ cid := h x (List.mem_cons_self x xs)
    have hrepl : replRow cid r₂ x = x := by simp [replRow, keyMatches, hx]
    have hkm : keyMatches cid x = false := by simpa [keyMatches] using hx
    rw [List.map_cons, hrepl, List.filter_cons, hkm, if_neg Bool.false_ne_true]
    exact ih fun r hr => h r (List.mem_cons_of_mem _ hr)

theorem filter_map_replRow (cid : String) (r₂ : CourseStructureRow)
    (hr₂ : r₂.course_id = cid) :
    ∀ l : List CourseStructureRow, (l.map CourseStructureRow.course_id).Nodup →
    (∃ r ∈ l, r.course_id = cid) →
    (l.map (replRow cid r₂)).filter (keyMatches cid) = [r₂] := by
  intro l
  induction l with
  | nil =>
    intro _ hex
    simp at hex
  | cons x xs ih =>
    intro hnodup hex
    simp only [List.map_cons, List.nodup_cons, List.mem_map] at hnodup
    by_cases hx : x.course_id = cid
    · have hrepl : replRow cid r₂ x = r₂ := by simp [replRow, keyMatches, hx]
      have hkm : keyMatches cid r₂ = true := by simpa [keyMatches] using hr₂
      have hrest : ∀ r ∈ xs, r.course_id ≠ cid := fun r hr heq =>
        hnodup.1 ⟨r, hr, heq.trans hx.symm⟩
      rw [List.map_cons, hrepl, List.filter_cons, hkm, if_pos rfl,
        filter_map_replRow_nil cid r₂ xs hrest]
    · have hrepl : replRow cid r₂ x = x := by simp [replRow, keyMatches, hx]
      have hkm : keyMatches cid x = false := by simpa [keyMatches] using hx
      have hex₂ : ∃ r ∈ xs, r.course_id = cid := by
        rcases hex with ⟨r, hr, hrk⟩
        rcases List.mem_cons.mp hr with rfl | hrm
        · exact absurd hrk hx
        · exact ⟨r, hrm, hrk⟩
      rw [List.map_cons, hrepl, List.filter_cons, hkm, if_neg Bool.false_ne_true]
      exact ih hnodup.2 hex₂

theorem keys_map_replRow (cid : String) (r₂ : CourseStructureRow)
    (hr₂ : r₂.course_id = cid) :
    ∀ l : List CourseStructureRow,
    (l.map (replRow cid r₂)).map CourseStructureRow.course_id =
      l.map CourseStructureRow.course_id := by
  intro l
  induction l with
  | nil => rfl
  | cons x xs ih =>
    have hhead : (replRow cid r₂ x).course_id = x.course_id := by
      by_cases hx : x.course_id = cid
      · simp [replRow, keyMatches, hx, hr₂]
      · simp [replRow, keyMatches, hx]
    rw [List.map_cons, List.map_cons, List.map_cons, hhead, ih]

theorem update_preserves_nodup (ms : String → Except String XBlock)
    (table : List CourseStructureRow) (ck : CourseKeyLike)
    (hnodup : (table.map CourseStructureRow.course_id).Nodup) :
    ((update_course_structure ms table ck).table.map
      CourseStructureRow.course_id).Nodup := by
  cases ck with
  | otherType tn => exact hnodup
  | courseLocator cid =>
    cases hg : generate_course_structure ms cid with
    | error e =>
      rw [update_error_eq ms table cid e hg]
      exact hnodup
    | ok st =>
      rw [update_success_eq ms table cid st hg]
      cases hf : table.find? (keyMatches cid) with
      | none =>
        rw [get_or_create_update_none table cid _ hf]
        have hfree : (cid : String) ∉ table.map CourseStructureRow.course_id := by
          intro hmem
          rcases List.mem_map.mp hmem with ⟨r, hr, hrk⟩
          have hnone := List.find?_eq_none.mp hf r hr
          simp [keyMatches, hrk] at hnone
        simp only [List.map_append, List.map_cons, List.map_nil]
        exact (List.perm_append_singleton _ _).nodup_iff.mpr
          (List.nodup_cons.mpr ⟨hfree, hnodup⟩)
      | some r =>
        rw [get_or_create_update_some table cid _ r hf]
        have hrk : r.course_id = cid := by
          have := List.find?_some hf
          simpa [keyMatches] using this
        show ((table.map (replRow cid ⟨r.course_id, jsonOfStructure st⟩)).map
          CourseStructureRow.course_id).Nodup
        rw [keys_map_replRow cid ⟨r.course_id, jsonOfStructure st⟩ hrk table]
        exact hnodup

theorem update_success_filter (ms : String → Except String XBlock)
    (table : List CourseStructureRow) (cid : String) (st : CourseStructureDict)
    (hnodup : (table.map CourseStructureRow.course_id).Nodup)
    (hg : generate_course_structure ms cid = .ok st) :
    (update_course_structure ms table (.courseLocator cid)).table.filter
      (keyMatches cid) = [⟨cid, jsonOfStructure st⟩] := by
  rw [update_success_eq ms table cid st hg]
  cases hf : table.find? (keyMatches cid) with
  | none =>
    rw [get_or_create_update_none table cid _ hf]
    have hno : ∀ r ∈ table, r.course_id ≠ cid := by
      intro r hr heq
      have hnone := List.find?_eq_none.mp hf r hr
      simp [keyMatches, heq] at hnone
    have hone : keyMatches cid ⟨cid, jsonOfStructure st⟩ = true := by
      simp [keyMatches]
    rw [List.filter_append, filter_keyMatches_nil table cid hno, List.nil_append,
      List.filter_cons, hone, if_pos rfl, List.filter_nil]
  | some r =>
    rw [get_or_create_update_some table cid _ r hf]
    have hrk : r.course_id = cid := by
      have := List.find?_some hf
      simpa [keyMatches] using this
    have hresult := filter_map_replRow cid ⟨r.course_id, jsonOfStructure st⟩ hrk table
      hnodup ⟨r, List.mem_of_find?_eq_some hf, hrk⟩
    rw [hresult, hrk]

theorem runUpdates_nodup (table : List CourseStructureRow)
    (hnodup : (table.map CourseStructureRow.course_id).Nodup)
    (ops : List ((String → Except String XBlock) × CourseKeyLike)) :
    ((runUpdates table ops).map CourseStructureRow.course_id).Nodup := by
  induction ops generalizing table with
  | nil => exact hnodup
  | cons op ops ih =>
    exact ih _ (update_preserves_nodup op.1 table op.2 hnodup)

/-- C7: starting from a table with at most one row per course_id, any update
invocation preserves that invariant; a successful update for cid leaves the
table with exactly one row for cid, holding the freshly computed
structure_json (inserted on first success, overwritten on later ones); and
any sequence of completed update operations preserves the invariant. -/
theorem update_course_structure_upsert (ms : String → Except String XBlock)
    (table : List CourseStructureRow) (ck : CourseKeyLike)
    (hnodup : (table.map CourseStructureRow.course_id).Nodup) :
    ((update_course_structure ms table ck).table.map
      CourseStructureRow.course_id).Nodup ∧
    (∀ cid st, ck = CourseKeyLike.courseLocator cid →
      generate_course_structure ms cid = Except.ok st →
      (update_course_structure ms table ck).table.filter (keyMatches cid) =
        [⟨cid, jsonOfStructure st⟩]) ∧
    (∀ ops, ((runUpdates table ops).map CourseStructureRow.course_id).Nodup) := by
  refine ⟨update_preserves_nodup ms table ck hnodup, ?_, runUpdates_nodup table hnodup⟩
  rintro cid st rfl hg
  exact update_success_filter ms table cid st hnodup hg

theorem update_course_structure_upsert_witness :
    (([] : List CourseStructureRow).map CourseStructureRow.course_id).Nodup ∧
    (((update_course_structure sampleMs []
        (.courseLocator "course-v1:a+course+run")).table.map
      CourseStructureRow.course_id).Nodup ∧
    (∀ cid st, CourseKeyLike.courseLocator "course-v1:a+course+run" =
        CourseKeyLike.courseLocator cid →
      generate_course_structure sampleMs cid = Except.ok st →
      (update_course_structure sampleMs []
        (.courseLocator "course-v1:a+course+run")).table.filter (keyMatches cid) =
        [⟨cid, jsonOfStructure st⟩]) ∧
    (∀ ops, ((runUpdates ([] : List CourseStructureRow) ops).map
      CourseStructureRow.course_id).Nodup)) :=
  ⟨List.nodup_nil,
    update_course_structure_upsert sampleMs []
      (.courseLocator "course-v1:a+course+run") List.nodup_nil⟩

/-- Modulestore whose course fetch always raises. -/
def msBoom : String → Except String XBlock := fun _ => .error "boom"

/-- True when sub occurs as a contiguous substring of s. -/
def strOccurs (s sub : String) : Bool := decide (sub.data <:+: s.data)

/-- C8 counterexample to the claim as stated: on a generation failure the
single log line carries the exception detail but does not contain the course
identifier anywhere. -/
theorem update_course_structure_log_counterexample :
    (update_course_structure msBoom []
      (.courseLocator "course-v1:edX+Demo+2014")).log = [generateErrorMsg "boom"] ∧
    strOccurs (generateErrorMsg "boom") "course-v1:edX+Demo+2014" = false :=
  ⟨rfl, by decide⟩

/-- C8 (amended): if generation raises, update_course_structure logs the
failure with the exception detail, re-raises the same exception to its
caller, and leaves the table unchanged (no row created or modified). -/
theorem update_course_structure_generation_failure
    (ms : String → Except String XBlock) (table : List CourseStructureRow)
    (cid e : String) (hg : generate_course_structure ms cid = .error e) :
    update_course_structure ms table (.courseLocator cid) =
      ⟨.error e, table, [generateErrorMsg e]⟩ :=
  update_error_eq ms table cid e hg

theorem update_course_structure_generation_failure_witness :
    generate_course_structure msBoom "course-v1:x+y+z" = .error "boom" ∧
    update_course_structure msBoom [] (.courseLocator "course-v1:x+y+z") =
      ⟨.error "boom", [], [generateErrorMsg "boom"]⟩ :=
  ⟨rfl,
    update_course_structure_generation_failure msBoom [] "course-v1:x+y+z" "boom" rfl⟩

/-- C9: when the course identifier is not a CourseLocator,
update_course_structure logs the type-guard error and returns without raising;
the table is unchanged, and no build is attempted (the result does not depend
on the modulestore at all). -/
theorem update_course_structure_type_guard (ms ms₂ : String → Except String XBlock)
    (table : List CourseStructureRow) (tn : String) :
    update_course_structure ms table (.otherType tn) =
      ⟨.ok none, table, [typeGuardMsg tn]⟩ ∧
    update_course_structure ms table (.otherType tn) =
      update_course_structure ms₂ table (.otherType tn) :=
  ⟨rfl, rfl⟩

end CourseStructures

namespace StoreFixtures

/-- A backend store beneath the mixed modulestore, as asset_collection
distinguishes them: a mongo modulestore has an asset_collection attribute; a
split modulestore keeps asset metadata in db_connection.structures. H is the
opaque type of raw collection handles. -/
inductive BackendStore (H : Type) where
| mongo (asset_collection : H)
| split (structures : H)

/-- The mixed modulestore as asset_collection sees it: its ordered list of
backing modulestores. -/
structure MixedModulestore (H : Type) where
  modulestores : List (BackendStore H)

/-- MixedModulestoreBuilder.asset_collection: None when more than one backend
is configured; otherwise read all_stores[0] (an IndexError when the list is
empty) and return its asset-metadata collection — the asset_collection
attribute for a mongo store, db_connection.structures for a split store. -/
def asset_collection {H : Type} (m : MixedModulestore H) : Except String (Option H) :=
  if m.modulestores.length > 1 then .ok none
  else
    match m.modulestores with
    | [] => .error "IndexError: list index out of range"
    | store :: _ =>
      match store with
      | .mongo ac => .ok (some ac)
      | .split structs => .ok (some structs)

/-- Whether an Except value returned normally. -/
def exceptOk {ε α : Type} : Except ε α → Bool
| .ok _ => true
| .error _ => false

/-- C6: with exactly one backend configured, asset_collection returns that
backend's raw asset-storage handle (the asset_collection attribute for a
mongo store, the structures collection for a split store); with more than one
backend it returns None. -/
theorem asset_collection_spec {H : Type} :
    (∀ ac : H, asset_collection ⟨[BackendStore.mongo ac]⟩ = .ok (some ac)) ∧
    (∀ sc : H, asset_collection ⟨[BackendStore.split sc]⟩ = .ok (some sc)) ∧
    (∀ (s₁ s₂ : BackendStore H) (rest : List (BackendStore H)),
      asset_collection ⟨s₁ :: s₂ :: rest⟩ = .ok none) := by
  refine ⟨fun ac => rfl, fun sc => rfl, fun s₁ s₂ rest => ?_⟩
  have hlen : (⟨s₁ :: s₂ :: rest⟩ : MixedModulestore H).modulestores.length > 1 := by
    simp [List.length_cons]
  simp only [asset_collection, if_pos hlen]

/-- C10: with zero backends configured, the read of all_stores[0] is out of
bounds, so asset_collection fails rather than returning None; the accessor
returns a value exactly when at least one backend is configured. -/
theorem asset_collection_empty_fails :
    (∀ H : Type, asset_collection (⟨[]⟩ : MixedModulestore H) =
      .error "IndexError: list index out of range") ∧
    (∀ (H : Type) (m : MixedModulestore H),
      exceptOk (asset_collection m) = true ↔ m.modulestores ≠ []) := by
  refine ⟨fun H => rfl, fun H m => ?_⟩
  obtain ⟨stores⟩ := m
  cases stores with
  | nil => simp [asset_collection, exceptOk]
  | cons s rest =>
    cases rest with
    | nil => cases s <;> simp [asset_collection, exceptOk]
    | cons s₂ rest₂ =>
      have hlen : (⟨s :: s₂ :: rest₂⟩ : MixedModulestore H).modulestores.length > 1 := by
        simp [List.length_cons]
      simp only [asset_collection, if_pos hlen]
      simp [exceptOk]

/-- Value yielded by StoreBuilderBase.build's context manager: either the
(contentstore, modulestore) pair from build_without_contentstore, or only the
modulestore from build_with_contentstore. -/
inductive BuildResult (C M : Type) where
| pair (contentstore : C) (modulestore : M)
| single (modulestore : M)

def BuildResult.isPair {C M : Type} : BuildResult C M → Bool
| .pair _ _ => true
| .single _ => false

/-- StoreBuilderBase.build: pops the contentstore kwarg; when absent it runs
build_without_contentstore (which creates a contentstore first) and yields
the (contentstore, modulestore) pair; when a contentstore is supplied it
yields only the modulestore built with it. -/
def build {C M : Type} (build_contentstore : Unit → C)
    (build_with_contentstore : C → M) : Option C → BuildResult C M
| none =>
  let contentstore := build_contentstore ()
  .pair contentstore (build_with_contentstore contentstore)
| some contentstore => .single (build_with_contentstore contentstore)

/-- C4 counterexample: a build invocation with a supplied contentstore yields
only the modulestore, not a (content_handle, store_handle) pair. -/
theorem build_pair_counterexample :
    build (fun _ => (0 : Nat)) (fun c => c + 1) (some 7) = .single 8 ∧
    ¬ (∀ sup : Option Nat,
        (build (fun _ => (0 : Nat)) (fun c => c + 1) sup).isPair = true) := by
  refine ⟨rfl, fun h => ?_⟩
  have h7 := h (some 7)
  simp [build, BuildResult.isPair] at h7

/-- C4 (amended): when no contentstore is supplied, build creates one first
and yields the (contentstore, modulestore) pair built from it; when one is
supplied, build yields only the modulestore built on the supplied
contentstore. -/
theorem build_spec {C M : Type} (build_contentstore : Unit → C)
    (build_with_contentstore : C → M) :
    build build_contentstore build_with_contentstore none =
      .pair (build_contentstore ())
        (build_with_contentstore (build_contentstore ())) ∧
    ∀ c, build build_contentstore build_with_contentstore (some c) =
      .single (build_with_contentstore c) :=
  ⟨rfl, fun _ => rfl⟩

/-- Backend-side state: names of live databases and live temp directories. -/
structure BackendState where
  live_dbs : List String
  temp_dirs : List String

/-- Outcome of a with-block body: a value or a raised exception. -/
inductive BodyOutcome (A E : Type) where
| ok (a : A)
| raised (e : E)

/-- Creating the contentstore database (MongoContentStore + ensure_indexes). -/
def contentstore_setup (db_name : String) (s : BackendState) : BackendState :=
  { s with live_dbs := s.live_dbs ++ [db_name] }

/-- The call `_drop_database()`: drops exactly the named database. -/
def dropDatabase (s : BackendState) (db_name : String) : BackendState :=
  { s with live_dbs := s.live_dbs.filter (fun n => n != db_name) }

/-- The call `rmtree(fs_root, ignore_errors=True)`: removes exactly the
named temp directory. -/
def removeTempDir (s : BackendState) (fs_root : String) : BackendState :=
  { s with temp_dirs := s.temp_dirs.filter (fun n => n != fs_root) }

/-- MongoContentstoreBuilder.build: create the contentstore database, yield
to the body, and in the finally clause drop the database — run on both exit
paths, with the body's outcome (value or exception) propagated. -/
def contentstore_build_scope {A E : Type} (db_name : String)
    (body : BackendState → BodyOutcome A E × BackendState) (s : BackendState) :
    BodyOutcome A E × BackendState :=
  let stepped := body (contentstore_setup db_name s)
  (stepped.1, dropDatabase stepped.2 db_name)

/-- Creating the modulestore database and the mkdtemp fs_root
(DraftModuleStore + ensure_indexes). -/
def modulestore_setup (db_name fs_root : String) (s : BackendState) : BackendState :=
  { s with live_dbs := s.live_dbs ++ [db_name], temp_dirs := s.temp_dirs ++ [fs_root] }

/-- MongoModulestoreBuilder.build_with_contentstore: create the modulestore
database and the temp fs_root, yield to the body, and in the finally clause
drop the database and rmtree the fs_root — run on both exit paths, with the
body's outcome propagated. -/
def modulestore_build_scope {A E : Type} (db_name fs_root : String)
    (body : BackendState → BodyOutcome A E × BackendState) (s : BackendState) :
    BodyOutcome A E × BackendState :=
  let stepped := body (modulestore_setup db_name fs_root s)
  (stepped.1, removeTempDir (dropDatabase stepped.2 db_name) fs_root)

theorem dropDatabase_not_mem (s : BackendState) (db_name : String) :
    db_name ∉ (dropDatabase s db_name).live_dbs := by
  intro hmem
  rw [dropDatabase] at hmem
  rcases (List.mem_filter.mp hmem) with ⟨_, hpred⟩
  simp at hpred

theorem removeTempDir_not_mem (s : BackendState) (fs_root : String) :
    fs_root ∉ (removeTempDir s fs_root).temp_dirs := by
  intro hmem
  rw [removeTempDir] at hmem
  rcases (List.mem_filter.mp hmem) with ⟨_, hpred⟩
  simp at hpred

theorem dropDatabase_mem_of_ne (s : BackendState) (db_name other : String)
    (hne : other ≠ db_name) (hmem : other ∈ s.live_dbs) :
    other ∈ (dropDatabase s db_name).live_dbs := by
  rw [dropDatabase]
  exact List.mem_filter.mpr ⟨hmem, by simpa using hne⟩

/-- C5: for both mongo-backed builders, whatever the body does — return
normally or raise — the scope exit runs the teardown: the created database is
no longer live afterwards (and for the modulestore the temp fs_root is
removed), and the body's outcome, value or exception, is propagated
unchanged. -/
theorem build_scope_teardown {A E : Type} (db_name fs_root : String)
    (body : BackendState → BodyOutcome A E × BackendState) (s : BackendState) :
    (db_name ∉ (modulestore_build_scope db_name fs_root body s).2.live_dbs ∧
      fs_root ∉ (modulestore_build_scope db_name fs_root body s).2.temp_dirs ∧
      (modulestore_build_scope db_name fs_root body s).1 =
        (body (modulestore_setup db_name fs_root s)).1) ∧
    (db_name ∉ (contentstore_build_scope db_name body s).2.live_dbs ∧
      (contentstore_build_scope db_name body s).1 =
        (body (contentstore_setup db_name s)).1) := by
  refine ⟨⟨?_, ?_, rfl⟩, ⟨?_, rfl⟩⟩
  · show db_name ∉
      (removeTempDir (dropDatabase (body (modulestore_setup db_name fs_root s)).2 db_name)
        fs_root).live_dbs
    rw [removeTempDir]
    exact dropDatabase_not_mem _ db_name
  · exact removeTempDir_not_mem _ fs_root
  · exact dropDatabase_not_mem _ db_name

/-- Decimal digit character, as str formatting renders one digit. -/
def decimalDigitChar (d : Nat) : Char := Char.ofNat (48 + d)

/-- Decimal rendering of a natural number, as `'{}'.format(n)` produces. -/
def decimalString (n : Nat) : String :=
  if n = 0 then "0" else ⟨((Nat.digits 10 n).map decimalDigitChar).reverse⟩

/-- The name `'contentstore{}'.format(random.randint(0, 10000))`. -/
def contentstore_db_name (r : Nat) : String := "contentstore" ++ decimalString r

/-- The name `'modulestore{}'.format(random.randint(0, 10000))`. -/
def modulestore_db_name (r : Nat) : String := "modulestore" ++ decimalString r

theorem decimalDigitChar_inj :
    ∀ d₁ : Nat, d₁ < 10 → ∀ d₂ : Nat, d₂ < 10 →
      decimalDigitChar d₁ = decimalDigitChar d₂ → d₁ = d₂ := by decide

theorem map_decimalDigitChar_inj :
    ∀ l₁ l₂ : List Nat, (∀ d ∈ l₁, d < 10) → (∀ d ∈ l₂, d < 10) →
      l₁.map decimalDigitChar = l₂.map decimalDigitChar → l₁ = l₂ := by
  intro l₁
  induction l₁ with
  | nil =>
    intro l₂ _ _ h
    cases l₂ with
    | nil => rfl
    | cons e es => simp at h
  | cons d ds ih =>
    intro l₂ h₁ h₂ h
    cases l₂ with
    | nil => simp at h
    | cons e es =>
      simp only [List.map_cons, List.cons.injEq] at h
      have hd : d = e :=
        decimalDigitChar_inj d (h₁ d (List.mem_cons_self d ds))
          e (h₂ e (List.mem_cons_self e es)) h.1
      rw [hd, ih es (fun x hx => h₁ x (List.mem_cons_of_mem _ hx))
        (fun x hx => h₂ x (List.mem_cons_of_mem _ hx)) h.2]

theorem decimalString_eq_zero (n : Nat) (h : decimalString n = "0") : n = 0 := by
  by_cases hn : n = 0
  · exact hn
  · exfalso
    rw [decimalString, if_neg hn] at h
    have hd : ((Nat.digits 10 n).map decimalDigitChar).reverse = ['0'] :=
      congrArg String.data h
    have hmap : (Nat.digits 10 n).map decimalDigitChar = ['0'] := by
      have := congrArg List.reverse hd
      simpa using this
    have hlist : Nat.digits 10 n = [0] :=
      map_decimalDigitChar_inj (Nat.digits 10 n) [0]
        (fun d hdm => Nat.digits_lt_base (by norm_num) hdm)
        (fun d hdm => by simp at hdm; omega)
        (hmap.trans (by decide))
    have hofd := congrArg (Nat.ofDigits 10) hlist
    rw [Nat.ofDigits_digits] at hofd
    simp [Nat.ofDigits] at hofd
    exact hn hofd

theorem decimalString_inj (m n : Nat) (h : decimalString m = decimalString n) :
    m = n := by
  by_cases hm : m = 0 <;> by_cases hn : n = 0
  · rw [hm, hn]
  · exfalso
    subst hm
    exact hn (decimalString_eq_zero n h.symm)
  · exfalso
    subst hn
    exact hm (decimalString_eq_zero m h)
  · rw [decimalString, if_neg hm, decimalString, if_neg hn] at h
    have hrev : ((Nat.digits 10 m).map decimalDigitChar).reverse =
        ((Nat.digits 10 n).map decimalDigitChar).reverse :=
      congrArg String.data h
    have hmap := List.reverse_injective hrev
    have hdig := map_decimalDigitChar_inj _ _
      (fun d hdm => Nat.digits_lt_base (by norm_num) hdm)
      (fun d hdm => Nat.digits_lt_base (by norm_num) hdm) hmap
    exact Nat.digits.injective 10 hdig

theorem contentstore_db_name_inj (r₁ r₂ : Nat)
    (h : contentstore_db_name r₁ = contentstore_db_name r₂) : r₁ = r₂ := by
  have hd := congrArg String.data h
  rw [contentstore_db_name, contentstore_db_name, String.data_append,
    String.data_append] at hd
  exact decimalString_inj r₁ r₂ (String.ext (List.append_cancel_left hd))

theorem modulestore_db_name_inj (r₁ r₂ : Nat)
    (h : modulestore_db_name r₁ = modulestore_db_name r₂) : r₁ = r₂ := by
  have hd := congrArg String.data h
  rw [modulestore_db_name, modulestore_db_name, String.data_append,
    String.data_append] at hd
  exact decimalString_inj r₁ r₂ (String.ext (List.append_cancel_left hd))

theorem contentstore_ne_modulestore (r₃ r₄ : Nat) :
    contentstore_db_name r₃ ≠ modulestore_db_name r₄ := by
  intro h
  have hd := congrArg String.data h
  rw [contentstore_db_name, modulestore_db_name, String.data_append,
    String.data_append] at hd
  have hc : ("contentstore" : String).data = 'c' :: ("ontentstore" : String).data := rfl
  have hm : ("modulestore" : String).data = 'm' :: ("odulestore" : String).data := rfl
  rw [hc, hm, List.cons_append, List.cons_append] at hd
  simp at hd

/-- C3 counterexample: random.randint(0, 10000) can return the same suffix
for two concurrently-live acquisitions (both draws in range), and equal
suffixes yield the same database name, so the randomized naming does not
guarantee that concurrently-live instances never share a namespace. -/
theorem store_isolation_counterexample :
    ((5 : Nat) ≤ 10000 ∧ contentstore_db_name 5 = contentstore_db_name 5) ∧
    ¬ (∀ r₁ r₂ : Nat, r₁ ≤ 10000 → r₂ ≤ 10000 →
        contentstore_db_name r₁ ≠ contentstore_db_name r₂) :=
  ⟨⟨by norm_num, rfl⟩, fun h => h 5 5 (by norm_num) (by norm_num) rfl⟩

/-- C3 (amended): two concurrently-acquired instances share a database name
only when their random suffixes coincide: distinct suffixes give distinct
contentstore names and distinct modulestore names, a contentstore name never
equals a modulestore name, and dropping one database leaves any other live
database with a different name intact. -/
theorem store_isolation_amended (r₁ r₂ : Nat) (h : r₁ ≠ r₂) :
    contentstore_db_name r₁ ≠ contentstore_db_name r₂ ∧
    modulestore_db_name r₁ ≠ modulestore_db_name r₂ ∧
    (∀ r₃ r₄ : Nat, contentstore_db_name r₃ ≠ modulestore_db_name r₄) ∧
    (∀ s : BackendState, contentstore_db_name r₂ ∈ s.live_dbs →
      contentstore_db_name r₂ ∈ (dropDatabase s (contentstore_db_name r₁)).live_dbs) :=
  ⟨fun he => h (contentstore_db_name_inj r₁ r₂ he),
    fun he => h (modulestore_db_name_inj r₁ r₂ he),
    contentstore_ne_modulestore,
    fun s hmem => dropDatabase_mem_of_ne s _ _
      (fun he => h (contentstore_db_name_inj r₂ r₁ he).symm) hmem⟩

theorem store_isolation_amended_witness :
    (3 : Nat) ≠ 5 ∧
    (contentstore_db_name 3 ≠ contentstore_db_name 5 ∧
      modulestore_db_name 3 ≠ modulestore_db_name 5 ∧
      (∀ r₃ r₄ : Nat, contentstore_db_name r₃ ≠ modulestore_db_name r₄) ∧
      (∀ s : BackendState, contentstore_db_name 5 ∈ s.live_dbs →
        contentstore_db_name 5 ∈ (dropDatabase s (contentstore_db_name 3)).live_dbs)) :=
  ⟨by norm_num, store_isolation_amended 3 5 (by norm_num)⟩

end StoreFixtures

namespace RoundTrip

/-- Modelled from the spec: a block of the portable on-disk course format —
the input of import_from_xml and the output of export_to_xml, which are
external collaborators not present in this repository's sources. A portable
block carries its block_type, its declared fields as name-value pairs, and
its children in authoring order. -/
inductive PortableBlock where
| mk : String → List (String × String) → List PortableBlock → PortableBlock

/-- Modelled from the spec: a block materialized in a store — the
backend-assigned usage_id plus block_type, declared fields, and children in
authoring order. -/
inductive StoredBlock where
| mk : String → String → List (String × String) → List StoredBlock → StoredBlock

/-- The fields the round-trip test excludes from block comparison. -/
def excluded_fields : List String := ["wiki_slug", "xml_attributes", "parent"]

/-- The asset metadata keys the round-trip test ignores. -/
def ignored_asset_keys : List String := ["_id", "uploadDate", "content_son", "thumbnail_location"]

/-- Modelled from the spec: what a backend assigns while importing — usage
ids by tree position, values of the backend-internal block fields
(wiki_slug, xml_attributes, parent), and values of the asset bookkeeping
keys (_id, uploadDate, content_son, thumbnail_location). -/
structure Backend where
  assignId : List Nat → String
  backendFieldValue : String → List Nat → String
  assetBookkeepingValue : String → Nat → String

/-- Importing a block's field bag: backend-internal fields take
backend-assigned values, every other declared field keeps its exact value. -/
def importFields (b : Backend) (path : List Nat) (fs : List (String × String)) :
    List (String × String) :=
  fs.map (fun kv =>
    if excluded_fields.contains kv.1 then (kv.1, b.backendFieldValue kv.1 path) else kv)

mutual

/-- Modelled from the spec: import_from_xml materializing one portable block
at a tree position — assigns the backend usage id, keeps block_type and
children order, rewrites backend-internal fields. -/
def importBlock (b : Backend) (path : List Nat) : PortableBlock → StoredBlock
| .mk bt fs cs => .mk (b.assignId path) bt (importFields b path fs) (importChildren b path 0 cs)

def importChildren (b : Backend) (path : List Nat) (i : Nat) :
    List PortableBlock → List StoredBlock
| [] => []
| c :: cs => importBlock b (path ++ [i]) c :: importChildren b path (i + 1) cs

end

mutual

/-- Modelled from the spec: export_to_xml writing one stored block back to
the portable format — drops the backend usage id, keeps block_type, declared
fields and children order. -/
def exportBlock : StoredBlock → PortableBlock
| .mk _ bt fs cs => .mk bt fs (exportChildren cs)

def exportChildren : List StoredBlock → List PortableBlock
| [] => []
| c :: cs => exportBlock c :: exportChildren cs

end

/-- The declared fields that take part in comparison: everything not on the
exclusion list. -/
def nonExcluded (ex : List String) (fs : List (String × String)) :
    List (String × String) :=
  fs.filter (fun kv => !(ex.contains kv.1))

/-- Field-bag comparison modulo the exclusion list. -/
def fieldsEqExcept (ex : List String) (fs₁ fs₂ : List (String × String)) : Bool :=
  nonExcluded ex fs₁ == nonExcluded ex fs₂

mutual

/-- Modelled from the spec: the cross-store equivalence checker on blocks —
pair by tree position, compare block_type and every declared field except the
excluded ones, fail hard on a child-count mismatch. -/
def compareBlocks (ex : List String) : StoredBlock → StoredBlock → Bool
| .mk _ bt₁ fs₁ cs₁, .mk _ bt₂ fs₂ cs₂ =>
  bt₁ == bt₂ && fieldsEqExcept ex fs₁ fs₂ && cs₁.length == cs₂.length &&
    compareChildren ex cs₁ cs₂

def compareChildren (ex : List String) : List StoredBlock → List StoredBlock → Bool
| [], [] => true
| _ :: _, [] => false
| [], _ :: _ => false
| c₁ :: cs₁, c₂ :: cs₂ => compareBlocks ex c₁ c₂ && compareChildren ex cs₁ cs₂

end

/-- Importing one asset metadata record: bookkeeping keys take
backend-assigned values, every other key keeps its exact value. -/
def importAsset (b : Backend) (i : Nat) (a : List (String × String)) :
    List (String × String) :=
  a.map (fun kv =>
    if ignored_asset_keys.contains kv.1 then (kv.1, b.assetBookkeepingValue kv.1 i) else kv)

def importAssetsFrom (b : Backend) : Nat → List (List (String × String)) →
    List (List (String × String))
| _, [] => []
| i, a :: rest => importAsset b i a :: importAssetsFrom b (i + 1) rest

/-- One asset record compared modulo the ignored bookkeeping keys. -/
def assetEqExcept (ign : List String) (a₁ a₂ : List (String × String)) : Bool :=
  nonExcluded ign a₁ == nonExcluded ign a₂

/-- Asset lists paired by position in their deterministic order. -/
def assetsEq (ign : List String) : List (List (String × String)) →
    List (List (String × String)) → Bool
| [], [] => true
| _ :: _, [] => false
| [], _ :: _ => false
| a₁ :: r₁, a₂ :: r₂ => assetEqExcept ign a₁ a₂ && assetsEq ign r₁ r₂

/-- Modelled from the spec: a sample course in the portable on-disk format —
the course block tree, the binary assets' metadata, and the denormalized
per-course asset metadata summary. -/
structure PortableCourse where
  course_block : PortableBlock
  assets : List (List (String × String))
  asset_metadata : List (List (String × String))

/-- A course materialized into one store together with its asset store. -/
structure StoredCourse where
  course_block : StoredBlock
  assets : List (List (String × String))
  asset_metadata : List (List (String × String))

/-- import_from_xml for a whole course. -/
def importCourse (b : Backend) (c : PortableCourse) : StoredCourse :=
  { course_block := importBlock b [] c.course_block
    assets := importAssetsFrom b 0 c.assets
    asset_metadata := importAssetsFrom b 0 c.asset_metadata }

/-- export_to_xml for a whole course. -/
def exportCourse (s : StoredCourse) : PortableCourse :=
  { course_block := exportBlock s.course_block
    assets := s.assets
    asset_metadata := s.asset_metadata }

/-- assertCoursesEqual, assertAssetsEqual and assertAssetsMetadataEqual with
the declared exclusions. -/
def compareCourses (ex ign : List String) (s₁ s₂ : StoredCourse) : Bool :=
  compareBlocks ex s₁.course_block s₂.course_block &&
  assetsEq ign s₁.assets s₂.assets &&
  assetsEq ign s₁.asset_metadata s₂.asset_metadata

mutual

def sblockSize : StoredBlock → Nat
| .mk _ _ _ cs => 1 + slistSize cs

def slistSize : List StoredBlock → Nat
| [] => 0
| c :: cs => sblockSize c + slistSize cs

end

theorem sblockSize_pos (s : StoredBlock) : 0 < sblockSize s := by
  cases s with
  | mk uid bt fs cs => simp [sblockSize]

theorem filter_map_keyval (ex : List String) (f : String × String → String) :
    ∀ fs : List (String × String),
      (fs.map (fun kv => if ex.contains kv.1 then (kv.1, f kv) else kv)).filter
        (fun kv => !(ex.contains kv.1)) =
      fs.filter (fun kv => !(ex.contains kv.1)) := by
  intro fs
  induction fs with
  | nil => rfl
  | cons kv rest ih =>
    rw [List.map_cons, List.filter_cons, List.filter_cons]
    cases hc : ex.contains kv.1 with
    | true =>
      have hmem : kv.1 ∈ ex := by simpa using hc
      simp at ih
      simp [hmem, ih]
    | false =>
      have hmem : kv.1 ∉ ex := by simpa using hc
      simp at ih
      simp [hmem, ih]

theorem nonExcluded_importFields (b : Backend) (path : List Nat)
    (fs : List (String × String)) :
    nonExcluded excluded_fields (importFields b path fs) =
      nonExcluded excluded_fields fs := by
  unfold nonExcluded importFields
  exact filter_map_keyval excluded_fields _ fs

theorem nonExcluded_importAsset (b : Backend) (i : Nat)
    (a : List (String × String)) :
    nonExcluded ignored_asset_keys (importAsset b i a) =
      nonExcluded ignored_asset_keys a := by
  unfold nonExcluded importAsset
  exact filter_map_keyval ignored_asset_keys _ a

theorem fieldsEqExcept_import (b : Backend) (path : List Nat)
    (fs : List (String × String)) :
    fieldsEqExcept excluded_fields fs (importFields b path fs) = true := by
  unfold fieldsEqExcept
  rw [nonExcluded_importFields]
  exact beq_self_eq_true _

theorem assetEq_import (b : Backend) (i : Nat) (a : List (String × String)) :
    assetEqExcept ignored_asset_keys a (importAsset b i a) = true := by
  unfold assetEqExcept
  rw [nonExcluded_importAsset]
  exact beq_self_eq_true _

theorem exportChildren_length :
    ∀ cs : List StoredBlock, (exportChildren cs).length = cs.length := by
  intro cs
  induction cs with
  | nil => rfl
  | cons c cs ih => rw [exportChildren, List.length_cons, List.length_cons, ih]

theorem importChildren_length (b : Backend) :
    ∀ (pcs : List PortableBlock) (path : List Nat) (i : Nat),
      (importChildren b path i pcs).length = pcs.length := by
  intro pcs
  induction pcs with
  | nil => intro path i; rfl
  | cons c cs ih =>
    intro path i
    rw [importChildren, List.length_cons, List.length_cons, ih]

theorem compareChildren_export_import (dst : Backend) :
    ∀ n : Nat, ∀ cs : List StoredBlock, slistSize cs ≤ n → ∀ path i,
      compareChildren excluded_fields cs
        (importChildren dst path i (exportChildren cs)) = true := by
  intro n
  induction n with
  | zero =>
    intro cs h path i
    cases cs with
    | nil => rfl
    | cons c rest =>
      exfalso
      have hpos := sblockSize_pos c
      simp [slistSize] at h
      omega
  | succ n ih =>
    intro cs h path i
    cases cs with
    | nil => rfl
    | cons c rest =>
      have hc : sblockSize c + slistSize rest ≤ n + 1 := by
        simpa [slistSize] using h
      have hrest : slistSize rest ≤ n := by
        have := sblockSize_pos c
        omega
      rw [exportChildren, importChildren, compareChildren]
      obtain ⟨uid, bt, fs, ccs⟩ := c
      have hccs : slistSize ccs ≤ n := by
        simp [sblockSize] at hc
        omega
      rw [exportBlock, importBlock, compareBlocks, fieldsEqExcept_import,
        importChildren_length, exportChildren_length,
        ih ccs hccs (path ++ [i]) 0, ih rest hrest path (i + 1)]
      simp

theorem compareBlocks_export_import (dst : Backend) (s : StoredBlock)
    (path : List Nat) :
    compareBlocks excluded_fields s (importBlock dst path (exportBlock s)) = true := by
  obtain ⟨uid, bt, fs, ccs⟩ := s
  rw [exportBlock, importBlock, compareBlocks, fieldsEqExcept_import,
    importChildren_length, exportChildren_length,
    compareChildren_export_import dst (slistSize ccs) ccs le_rfl path 0]
  simp

theorem assetsEq_import (b : Backend) :
    ∀ (as : List (List (String × String))) (i : Nat),
      assetsEq ignored_asset_keys as (importAssetsFrom b i as) = true := by
  intro as
  induction as with
  | nil => intro i; rfl
  | cons a rest ih =>
    intro i
    rw [importAssetsFrom, assetsEq, assetEq_import, ih]
    rfl

/-- C1 (modelled from the spec, since import_from_xml, export_to_xml and the
course comparison mixin are external to this repository's sources): for every
pair of source and destination backends and every portable sample course,
importing into the source store, exporting, and importing the export into the
destination store yields courses, assets and asset metadata that the
comparison reports equivalent, once wiki_slug, xml_attributes and parent are
excluded from block comparison and the asset keys _id, uploadDate,
content_son and thumbnail_location are ignored. -/
theorem round_trip_equivalence (src dst : Backend) (course : PortableCourse) :
    compareCourses excluded_fields ignored_asset_keys (importCourse src course)
      (importCourse dst (exportCourse (importCourse src course))) = true := by
  rw [compareCourses]
  simp only [importCourse, exportCourse]
  rw [compareBlocks_export_import dst _ [], assetsEq_import dst _ 0,
    assetsEq_import dst _ 0]
  rfl

end RoundTrip
